import Mathlib

/-!
Verification development for the EcoPort waste-pickup backend
(`src/backend/server.py`).

The pure pricing/geofencing helpers and the request handlers
(`create_pickup_request`, `update_pickup_request`, `assign_driver`,
`create_driver`, `update_driver_status`, `create_rating`) are embedded as
functions on an explicit `World` state holding the three MongoDB
collections.  Python floats are modelled as real numbers; `datetime.utcnow`
is modelled by a logical clock `World.now` advanced once per state-changing
handler call.  Each handler returns the (possibly unchanged) world together
with `Except Err result`, mirroring a raised `HTTPException` versus a
normal response.
-/

namespace EcoPort

open Real

/-! ## Enumerations (server.py, "ENUMS" section) -/

inductive PickupStatus
  | pending
  | approved
  | assigned
  | completed
deriving DecidableEq

/-- The `.value` string of the `PickupStatus` Python `str` enum. -/
def PickupStatus.value : PickupStatus → String
  | .pending => "Pending"
  | .approved => "Approved"
  | .assigned => "Assigned"
  | .completed => "Completed"

inductive WasteType
  | organic
  | plastic
  | metal
  | e_waste
  | mixed
deriving DecidableEq

def WasteType.value : WasteType → String
  | .organic => "Organic"
  | .plastic => "Plastic"
  | .metal => "Metal"
  | .e_waste => "E-Waste"
  | .mixed => "Mixed"

inductive Quantity
  | small
  | medium
  | large
  | bulk
deriving DecidableEq

def Quantity.value : Quantity → String
  | .small => "Small"
  | .medium => "Medium"
  | .large => "Large"
  | .bulk => "Bulk"

inductive DriverStatus
  | available
  | busy
  | offline
deriving DecidableEq

inductive PaymentStatus
  | pending
  | paid
  | failed
deriving DecidableEq

inductive PaymentMethod
  | cod
  | upi
  | invoice
deriving DecidableEq

/-- Error kinds of the spec's taxonomy, one per distinct
`HTTPException`/validation site reached by the embedded handlers. -/
inductive Err
  | notFound
  | invalidTransition
  | invalidState
  | driverUnavailable
  | outOfServiceArea
  | conflict
  | validationError
deriving DecidableEq

/-! ## Data model (server.py, "MODELS" section)

`datetime` fields are logical `Nat` timestamps.  The history-entry field
names `at`/`by` are Lean keywords and appear here as `time`/`actor`. -/

structure Location where
  latitude : ℝ
  longitude : ℝ
  address : String := ""

structure StatusHistoryEntry where
  status : String
  time : Nat
  actor : String := "system"
deriving DecidableEq

structure PriceHistoryEntry where
  actual_cost : ℝ
  time : Nat
  actor : String := "admin"

structure PickupRequest where
  id : String
  location : Location
  waste_image : String
  waste_type : WasteType
  quantity : Quantity
  estimated_cost : ℝ
  actual_cost : Option ℝ := none
  distance_km : ℝ
  status : PickupStatus := .pending
  user_contact : Option String := none
  notes : Option String := none
  driver_id : Option String := none
  payment_method : Option PaymentMethod := none
  payment_status : PaymentStatus := .pending
  status_history : List StatusHistoryEntry := []
  price_history : List PriceHistoryEntry := []
  created_at : Nat
  updated_at : Nat

structure PickupRequestCreate where
  location : Location
  waste_image : String
  waste_type : WasteType
  quantity : Quantity
  user_contact : Option String := none
  notes : Option String := none
  payment_method : Option PaymentMethod := none

/-- The admin PATCH body.  `exclude_unset=True` distinguishes an absent
field from an explicitly `null` one; that distinction is observable for
`actual_cost` (a provided `null` clears the stored value), so that field
is doubly optional: outer `Option` = provided at all, inner = the value.
For the remaining fields only provided non-null values are modelled. -/
structure PickupRequestUpdate where
  status : Option PickupStatus := none
  actual_cost : Option (Option ℝ) := none
  notes : Option String := none
  payment_status : Option PaymentStatus := none

structure Driver where
  id : String
  name : String
  phone : String
  vehicle_type : String
  vehicle_number : String
  status : DriverStatus := .available
  current_location : Option Location := none
  created_at : Nat

structure DriverCreate where
  name : String
  phone : String
  vehicle_type : String
  vehicle_number : String

structure Rating where
  id : String
  pickup_id : String
  rating : ℤ
  feedback : Option String := none
  created_at : Nat

/-! ## Configuration and pricing constants (server.py top of file) -/

/-- `SERVICE_CENTER_LAT` default. -/
noncomputable def SERVICE_CENTER_LAT : ℝ := 26.7271

/-- `SERVICE_CENTER_LNG` default. -/
noncomputable def SERVICE_CENTER_LNG : ℝ := 88.3953

/-- `SERVICE_RADIUS_KM` default. -/
noncomputable def SERVICE_RADIUS_KM : ℝ := 20

def RATE_PER_KM : ℝ := 10

def BASE_RATE : ℝ := 50

/-- Association-list lookup with a default, mirroring Python `dict.get`. -/
def dictGet (d : List (String × ℝ)) (k : String) (dflt : ℝ) : ℝ :=
  match d.find? (fun p => p.1 == k) with
  | some p => p.2
  | none => dflt

def VOLUME_FACTORS : List (String × ℝ) :=
  [("Small", 1.0), ("Medium", 1.5), ("Large", 2.0), ("Bulk", 3.0)]

def WASTE_SURCHARGES : List (String × ℝ) :=
  [("Organic", 1.0), ("Plastic", 1.0), ("Metal", 1.0), ("E-Waste", 1.2), ("Mixed", 1.1)]

/-! ## Utilities (server.py, "UTILITIES" section) -/

/-- `math.radians`. -/
noncomputable def radians (deg : ℝ) : ℝ := deg * π / 180

/-- `math.atan2` (two-argument arctangent, quadrant-aware). -/
noncomputable def atan2 (y x : ℝ) : ℝ :=
  if 0 < x then arctan (y / x)
  else if x < 0 ∧ 0 ≤ y then arctan (y / x) + π
  else if x < 0 ∧ y < 0 then arctan (y / x) - π
  else if x = 0 ∧ 0 < y then π / 2
  else if x = 0 ∧ y < 0 then -(π / 2)
  else 0

/-- `haversine_distance`: great-circle distance in km on a sphere of
radius 6371 km. -/
noncomputable def haversine_distance (lat1 lon1 lat2 lon2 : ℝ) : ℝ :=
  let R : ℝ := 6371
  let lat1_rad := radians lat1
  let lat2_rad := radians lat2
  let delta_lat := radians (lat2 - lat1)
  let delta_lon := radians (lon2 - lon1)
  let a := Real.sin (delta_lat / 2) ^ 2 +
    Real.cos lat1_rad * Real.cos lat2_rad * Real.sin (delta_lon / 2) ^ 2
  let c := 2 * atan2 (Real.sqrt a) (Real.sqrt (1 - a))
  R * c

/-- Python `round(x, 2)` (half-way cases follow Lean's `round`). -/
noncomputable def round2 (x : ℝ) : ℝ := (round (x * 100) : ℤ) / 100

/-- `calculate_cost`. -/
noncomputable def calculate_cost (distance_km : ℝ) (quantity : String)
    (waste_type : String) : ℝ :=
  let volume_factor := dictGet VOLUME_FACTORS quantity 1.0
  let surcharge := dictGet WASTE_SURCHARGES waste_type 1.0
  round2 (((distance_km * RATE_PER_KM) + (volume_factor * BASE_RATE)) * surcharge)

/-! ## Persistence model

The three MongoDB collections, in insertion order, plus a logical clock.
`find_one({'id': v})` is `List.find?` on the `id` field; `update_one`
with `$set` rewrites the first matching document; `insert_one` appends. -/

structure World where
  pickups : List PickupRequest
  drivers : List Driver
  ratings : List Rating
  now : Nat

def world0 : World := ⟨[], [], [], 0⟩

/-- `update_one`: rewrite the first element satisfying `p` with `f`. -/
def updateFirst {α : Type} : List α → (α → Bool) → (α → α) → List α
  | [], _, _ => []
  | x :: xs, p, f => if p x then f x :: xs else x :: updateFirst xs p f

/-! ## Handlers (server.py, route functions)

Each handler returns the resulting world paired with `Except Err r`:
`.error e` models a raised `HTTPException` of the spec's kind `e`, and in
that case the returned world is the input world (the single `$set`/
`insert_one` write site sits after every validation in the source). -/

/-- The persisted `PickupRequest` document built by `create_pickup_request`:
status Pending, engine-supplied cost and rounded distance, and a status
history seeded with the single creation event by actor `"user"`. -/
noncomputable def createdPickup (w : World) (request : PickupRequestCreate)
    (newId : String) : PickupRequest :=
  let distance_km := haversine_distance SERVICE_CENTER_LAT SERVICE_CENTER_LNG
    request.location.latitude request.location.longitude
  { id := newId
    location := request.location
    waste_image := request.waste_image
    waste_type := request.waste_type
    quantity := request.quantity
    estimated_cost :=
      calculate_cost distance_km request.quantity.value request.waste_type.value
    distance_km := round2 distance_km
    user_contact := request.user_contact
    notes := request.notes
    payment_method := request.payment_method
    status_history := [⟨PickupStatus.pending.value, w.now, "user"⟩]
    created_at := w.now
    updated_at := w.now }

/-- `POST /pickup-requests` (`create_pickup_request`).  The fresh
`uuid4` id is an explicit argument.  The pydantic `waste_image` size
validator (reject above `2.67 * 1024 * 1024` base64 characters) runs
before the handler body. -/
noncomputable def create_pickup_request (w : World)
    (request : PickupRequestCreate) (newId : String) :
    World × Except Err PickupRequest :=
  if (request.waste_image.length : ℝ) > 2.67 * 1024 * 1024 then
    (w, .error .validationError)
  else
    let distance_km := haversine_distance SERVICE_CENTER_LAT SERVICE_CENTER_LNG
      request.location.latitude request.location.longitude
    if distance_km > SERVICE_RADIUS_KM then
      (w, .error .outOfServiceArea)
    else
      let pickup : PickupRequest := createdPickup w request newId
      ({ w with pickups := w.pickups ++ [pickup], now := w.now + 1 }, .ok pickup)

/-- The `valid_transitions` table of `update_pickup_request`. -/
def valid_transitions : PickupStatus → List PickupStatus
  | .pending => [.approved]
  | .approved => [.assigned]
  | .assigned => [.completed]
  | .completed => []

/-- The merged document produced by `update_pickup_request`'s `$set` of
`update_data`: status change (with its history append), actual-cost
change (with its history append when the provided value is non-null),
direct fields, and the `updated_at` stamp. -/
def applyPatch (pickup : PickupRequest) (update : PickupRequestUpdate)
    (admin : String) (now : Nat) : PickupRequest :=
  let p1 : PickupRequest :=
    match update.status with
    | some s =>
      { pickup with
        status := s
        status_history := pickup.status_history ++ [⟨s.value, now, admin⟩] }
    | none => pickup
  let p2 : PickupRequest :=
    match update.actual_cost with
    | some (some c) =>
      { p1 with
        actual_cost := some c
        price_history := p1.price_history ++ [⟨c, now, admin⟩] }
    | some none => { p1 with actual_cost := none }
    | none => p1
  let p3 : PickupRequest :=
    match update.notes with
    | some v => { p2 with notes := some v }
    | none => p2
  let p4 : PickupRequest :=
    match update.payment_status with
    | some v => { p3 with payment_status := v }
    | none => p3
  { p4 with updated_at := now }

/-- `PUT /pickup-requests/{id}` (`update_pickup_request`, admin only;
`admin` is the authenticated admin's username). -/
def update_pickup_request (w : World) (request_id : String)
    (update : PickupRequestUpdate) (admin : String) :
    World × Except Err PickupRequest :=
  match w.pickups.find? (fun p => p.id == request_id) with
  | none => (w, .error .notFound)
  | some pickup =>
    let proceed : World × Except Err PickupRequest :=
      let p5 : PickupRequest := applyPatch pickup update admin w.now
      ({ w with
          pickups := updateFirst w.pickups (fun p => p.id == request_id) (fun _ => p5)
          now := w.now + 1 },
        .ok p5)
    match update.status with
    | some s =>
      if s ∈ valid_transitions pickup.status then proceed
      else (w, .error .invalidTransition)
    | none => proceed

/-- The `$set` document written to the pickup request by `assign_driver`:
driver reference, Assigned status with its history append, and the
`updated_at` stamp. -/
def assignedPickup (pickup : PickupRequest) (driver_id admin : String)
    (now : Nat) : PickupRequest :=
  { pickup with
    driver_id := some driver_id
    status := .assigned
    status_history := pickup.status_history ++
      [⟨PickupStatus.assigned.value, now, admin⟩]
    updated_at := now }

/-- `POST /pickup-requests/{id}/assign-driver` (`assign_driver`,
admin only). -/
def assign_driver (w : World) (request_id : String) (driver_id : String)
    (admin : String) : World × Except Err PickupRequest :=
  match w.pickups.find? (fun p => p.id == request_id) with
  | none => (w, .error .notFound)
  | some pickup =>
    if pickup.status ≠ .approved then (w, .error .invalidState)
    else
      match w.drivers.find? (fun d => d.id == driver_id) with
      | none => (w, .error .notFound)
      | some driver =>
        if driver.status ≠ .available then (w, .error .driverUnavailable)
        else
          let p1 : PickupRequest := assignedPickup pickup driver_id admin w.now
          ({ w with
              pickups := updateFirst w.pickups (fun p => p.id == request_id) (fun _ => p1)
              drivers := updateFirst w.drivers (fun d => d.id == driver_id)
                (fun d => { d with status := .busy })
              now := w.now + 1 },
            .ok p1)

/-- `POST /drivers` (`create_driver`, admin only). -/
def create_driver (w : World) (input : DriverCreate) (newId : String) :
    World × Except Err Driver :=
  let d : Driver :=
    { id := newId
      name := input.name
      phone := input.phone
      vehicle_type := input.vehicle_type
      vehicle_number := input.vehicle_number
      created_at := w.now }
  ({ w with drivers := w.drivers ++ [d], now := w.now + 1 }, .ok d)

/-- `PUT /drivers/{id}/status` (`update_driver_status`, admin only):
unconditional overwrite once the id exists. -/
def update_driver_status (w : World) (driver_id : String)
    (status : DriverStatus) : World × Except Err Driver :=
  match w.drivers.find? (fun d => d.id == driver_id) with
  | none => (w, .error .notFound)
  | some driver =>
    let d1 : Driver := { driver with status := status }
    ({ w with
        drivers := updateFirst w.drivers (fun d => d.id == driver_id) (fun _ => d1)
        now := w.now + 1 },
      .ok d1)

/-- `POST /ratings` (`create_rating`, no auth).  The pydantic bound
`1 ≤ rating ≤ 5` on `RatingCreate` is checked at request parsing, before
the handler body runs. -/
def create_rating (w : World) (pickup_id : String) (score : ℤ)
    (feedback : Option String) (newId : String) :
    World × Except Err Rating :=
  if ¬ (1 ≤ score ∧ score ≤ 5) then (w, .error .validationError)
  else
    match w.pickups.find? (fun p => p.id == pickup_id) with
    | none => (w, .error .notFound)
    | some pickup =>
      if pickup.status.value ≠ PickupStatus.completed.value then
        (w, .error .invalidState)
      else
        match w.ratings.find? (fun r => r.pickup_id == pickup_id) with
        | some _ => (w, .error .conflict)
        | none =>
          let r : Rating :=
            { id := newId
              pickup_id := pickup_id
              rating := score
              feedback := feedback
              created_at := w.now }
          ({ w with ratings := w.ratings ++ [r], now := w.now + 1 }, .ok r)

/-! ## Reachability -/

/-- One handler execution (with arbitrary arguments); a failing call
steps to the unchanged world. -/
inductive StepTo : World → World → Prop
  | create (w : World) (inp : PickupRequestCreate) (newId : String) :
      StepTo w (create_pickup_request w inp newId).1
  | update (w : World) (rid : String) (patch : PickupRequestUpdate) (adm : String) :
      StepTo w (update_pickup_request w rid patch adm).1
  | assign (w : World) (rid did adm : String) :
      StepTo w (assign_driver w rid did adm).1
  | driverCreate (w : World) (inp : DriverCreate) (newId : String) :
      StepTo w (create_driver w inp newId).1
  | driverStatus (w : World) (did : String) (st : DriverStatus) :
      StepTo w (update_driver_status w did st).1
  | rate (w : World) (pid : String) (score : ℤ) (fb : Option String) (newId : String) :
      StepTo w (create_rating w pid score fb newId).1

/-- Worlds reachable from the empty store by handler executions. -/
inductive Reachable : World → Prop
  | init : Reachable world0
  | step {w w' : World} : Reachable w → StepTo w w' → Reachable w'

/-! ## Store invariants -/

/-- The status history is non-empty and its last entry's status string
mirrors the current status field. -/
def HistoryOk (p : PickupRequest) : Prop :=
  p.status_history ≠ [] ∧
    p.status_history.getLast?.map StatusHistoryEntry.status = some p.status.value

def HistoryInv (w : World) : Prop := ∀ p ∈ w.pickups, HistoryOk p

/-- No two stored ratings reference the same pickup request. -/
def RatingsInv (w : World) : Prop :=
  w.ratings.Pairwise (fun a b => a.pickup_id ≠ b.pickup_id)

/-- Each previously stored pickup document survives at its position and
its status history is only ever extended at the tail. -/
def PickupsExtend (old new : List PickupRequest) : Prop :=
  old.length ≤ new.length ∧
  ∀ (i : Nat) (p_old : PickupRequest), old[i]? = some p_old →
    ∃ (p_new : PickupRequest) (t : List StatusHistoryEntry), new[i]? = some p_new ∧
      p_new.status_history = p_old.status_history ++ t

/-! ## Helper lemmas about `updateFirst` and `find?` -/

theorem length_updateFirst {α : Type} (l : List α) (p : α → Bool) (f : α → α) :
    (updateFirst l p f).length = l.length := by
  induction l with
  | nil => rfl
  | cons x xs ih =>
    simp only [updateFirst]
    split <;> simp [ih]

theorem find?_updateFirst {α : Type} {l : List α} {p : α → Bool} {f : α → α}
    {a : α} (hfind : l.find? p = some a) (hf : p (f a) = true) :
    (updateFirst l p f).find? p = some (f a) := by
  induction l with
  | nil => simp at hfind
  | cons x xs ih =>
    by_cases hx : p x
    · rw [List.find?_cons_of_pos _ hx] at hfind
      injection hfind with hax
      subst hax
      simp only [updateFirst, hx]
      exact List.find?_cons_of_pos _ hf
    · rw [List.find?_cons_of_neg _ hx] at hfind
      simp only [updateFirst, if_neg hx]
      rw [List.find?_cons_of_neg _ hx]
      exact ih hfind

theorem mem_updateFirst {α : Type} {l : List α} {p : α → Bool} {f : α → α}
    {a x : α} (hfind : l.find? p = some a) (hx : x ∈ updateFirst l p f) :
    x ∈ l ∨ x = f a := by
  induction l with
  | nil => simp [updateFirst] at hx
  | cons y ys ih =>
    by_cases hy : p y
    · rw [List.find?_cons_of_pos _ hy] at hfind
      injection hfind with hay
      subst hay
      simp only [updateFirst, hy] at hx
      rcases List.mem_cons.mp hx with h | h
      · exact .inr h
      · exact .inl (List.mem_cons_of_mem _ h)
    · rw [List.find?_cons_of_neg _ hy] at hfind
      simp only [updateFirst, hy] at hx
      rcases List.mem_cons.mp hx with h | h
      · exact .inl (h ▸ List.mem_cons_self _ _)
      · rcases ih hfind h with h' | h'
        · exact .inl (List.mem_cons_of_mem _ h')
        · exact .inr h'

theorem getElem?_updateFirst {α : Type} {l : List α} {p : α → Bool} {f : α → α}
    {a : α} (hfind : l.find? p = some a) (i : Nat) :
    (updateFirst l p f)[i]? = l[i]? ∨
    ((updateFirst l p f)[i]? = some (f a) ∧ l[i]? = some a) := by
  induction l generalizing i with
  | nil => left; rfl
  | cons y ys ih =>
    by_cases hy : p y
    · rw [List.find?_cons_of_pos _ hy] at hfind
      injection hfind with hay
      subst hay
      have hrw : updateFirst (y :: ys) p f = f y :: ys := by
        simp [updateFirst, hy]
      rw [hrw]
      cases i with
      | zero => right; exact ⟨by simp, by simp⟩
      | succ j => left; simp
    · rw [List.find?_cons_of_neg _ hy] at hfind
      have hrw : updateFirst (y :: ys) p f = y :: updateFirst ys p f := by
        simp [updateFirst, hy]
      rw [hrw]
      cases i with
      | zero => left; simp
      | succ j =>
        rcases ih hfind j with hcase | hcase
        · left
          simpa using hcase
        · right
          constructor
          · simpa using hcase.1
          · simpa using hcase.2

/-! ## Field lemmas about `applyPatch` -/

theorem applyPatch_status_some {update : PickupRequestUpdate} {s : PickupStatus}
    (pickup : PickupRequest) (admin : String) (now : Nat)
    (h : update.status = some s) :
    (applyPatch pickup update admin now).status = s ∧
    (applyPatch pickup update admin now).status_history =
      pickup.status_history ++ [⟨s.value, now, admin⟩] := by
  rcases update with ⟨ust, uac, unt, ups⟩
  obtain rfl : ust = some s := h
  cases uac with
  | none => cases unt <;> cases ups <;> exact ⟨rfl, rfl⟩
  | some v => cases v <;> cases unt <;> cases ups <;> exact ⟨rfl, rfl⟩

theorem applyPatch_status_none {update : PickupRequestUpdate}
    (pickup : PickupRequest) (admin : String) (now : Nat)
    (h : update.status = none) :
    (applyPatch pickup update admin now).status = pickup.status ∧
    (applyPatch pickup update admin now).status_history = pickup.status_history := by
  rcases update with ⟨ust, uac, unt, ups⟩
  obtain rfl : ust = none := h
  cases uac with
  | none => cases unt <;> cases ups <;> exact ⟨rfl, rfl⟩
  | some v => cases v <;> cases unt <;> cases ups <;> exact ⟨rfl, rfl⟩

theorem applyPatch_cost_null {update : PickupRequestUpdate}
    (pickup : PickupRequest) (admin : String) (now : Nat)
    (h : update.actual_cost = some none) :
    (applyPatch pickup update admin now).actual_cost = none ∧
    (applyPatch pickup update admin now).price_history = pickup.price_history := by
  rcases update with ⟨ust, uac, unt, ups⟩
  obtain rfl : uac = some none := h
  cases ust <;> cases unt <;> cases ups <;> exact ⟨rfl, rfl⟩

theorem applyPatch_history_extend (pickup : PickupRequest)
    (update : PickupRequestUpdate) (admin : String) (now : Nat) :
    ∃ t, (applyPatch pickup update admin now).status_history =
      pickup.status_history ++ t := by
  cases hst : update.status with
  | some s => exact ⟨_, (applyPatch_status_some pickup admin now hst).2⟩
  | none => exact ⟨[], by rw [(applyPatch_status_none pickup admin now hst).2, List.append_nil]⟩

/-! ## Shape lemmas: each handler's full outcome case split -/

theorem create_pickup_shape (w : World) (inp : PickupRequestCreate) (newId : String) :
    create_pickup_request w inp newId = (w, .error .validationError) ∨
    create_pickup_request w inp newId = (w, .error .outOfServiceArea) ∨
    ∃ pickup : PickupRequest,
      create_pickup_request w inp newId =
        ({ w with pickups := w.pickups ++ [pickup], now := w.now + 1 }, .ok pickup) ∧
      pickup.status = .pending ∧
      pickup.status_history = [⟨"Pending", w.now, "user"⟩] := by
  simp only [create_pickup_request]
  split
  · exact .inl rfl
  · split
    · exact .inr (.inl rfl)
    · exact .inr (.inr ⟨_, rfl, rfl, rfl⟩)

theorem update_pickup_shape (w : World) (rid : String)
    (patch : PickupRequestUpdate) (adm : String) :
    update_pickup_request w rid patch adm = (w, .error .notFound) ∨
    update_pickup_request w rid patch adm = (w, .error .invalidTransition) ∨
    ∃ pickup : PickupRequest,
      w.pickups.find? (fun p => p.id == rid) = some pickup ∧
      update_pickup_request w rid patch adm =
        ({ w with
            pickups := updateFirst w.pickups (fun p => p.id == rid)
              (fun _ => applyPatch pickup patch adm w.now)
            now := w.now + 1 },
          .ok (applyPatch pickup patch adm w.now)) := by
  cases hf : w.pickups.find? (fun p => p.id == rid) with
  | none =>
    left
    simp [update_pickup_request, hf]
  | some pickup =>
    cases hst : patch.status with
    | none =>
      right; right
      refine ⟨pickup, rfl, ?_⟩
      simp [update_pickup_request, hf, hst]
    | some s =>
      by_cases hv : s ∈ valid_transitions pickup.status
      · right; right
        refine ⟨pickup, rfl, ?_⟩
        simp [update_pickup_request, hf, hst, hv]
      · right; left
        simp [update_pickup_request, hf, hst, hv]

theorem assign_driver_shape (w : World) (rid did adm : String) :
    (∃ e, assign_driver w rid did adm = (w, .error e)) ∨
    ∃ (pickup : PickupRequest) (driver : Driver),
      w.pickups.find? (fun p => p.id == rid) = some pickup ∧
      w.drivers.find? (fun d => d.id == did) = some driver ∧
      pickup.status = .approved ∧ driver.status = .available ∧
      assign_driver w rid did adm =
        ({ w with
            pickups := updateFirst w.pickups (fun p => p.id == rid)
              (fun _ => assignedPickup pickup did adm w.now)
            drivers := updateFirst w.drivers (fun d => d.id == did)
              (fun d => { d with status := .busy })
            now := w.now + 1 },
          .ok (assignedPickup pickup did adm w.now)) := by
  cases hf : w.pickups.find? (fun p => p.id == rid) with
  | none =>
    left
    exact ⟨.notFound, by simp [assign_driver, hf]⟩
  | some pickup =>
    by_cases hp : pickup.status = .approved
    · cases hd : w.drivers.find? (fun d => d.id == did) with
      | none =>
        left
        exact ⟨.notFound, by simp [assign_driver, hf, hp, hd]⟩
      | some driver =>
        by_cases hdv : driver.status = .available
        · right
          refine ⟨pickup, driver, rfl, rfl, hp, hdv, ?_⟩
          simp [assign_driver, hf, hp, hd, hdv]
        · left
          exact ⟨.driverUnavailable, by simp [assign_driver, hf, hp, hd, hdv]⟩
    · left
      exact ⟨.invalidState, by simp [assign_driver, hf, hp]⟩

theorem create_rating_shape (w : World) (pid : String) (score : ℤ)
    (fb : Option String) (newId : String) :
    (create_rating w pid score fb newId).1 = w ∨
    (w.ratings.find? (fun r => r.pickup_id == pid) = none ∧
      create_rating w pid score fb newId =
        ({ w with
            ratings := w.ratings ++ [⟨newId, pid, score, fb, w.now⟩]
            now := w.now + 1 },
          .ok ⟨newId, pid, score, fb, w.now⟩)) := by
  by_cases hs : ¬ (1 ≤ score ∧ score ≤ 5)
  · left
    simp [create_rating, hs]
  · cases hf : w.pickups.find? (fun p => p.id == pid) with
    | none =>
      left
      simp [create_rating, hs, hf]
    | some pickup =>
      by_cases hc : pickup.status.value ≠ PickupStatus.completed.value
      · left
        simp [create_rating, hs, hf, hc]
      · cases hr : w.ratings.find? (fun r => r.pickup_id == pid) with
        | some old =>
          left
          simp [create_rating, hs, hf, hc, hr]
        | none =>
          right
          refine ⟨rfl, ?_⟩
          simp [create_rating, hs, hf, hc, hr]

theorem create_driver_fst (w : World) (inp : DriverCreate) (newId : String) :
    (create_driver w inp newId).1.pickups = w.pickups ∧
    (create_driver w inp newId).1.ratings = w.ratings :=
  ⟨rfl, rfl⟩

theorem update_driver_status_fst (w : World) (did : String) (st : DriverStatus) :
    (update_driver_status w did st).1.pickups = w.pickups ∧
    (update_driver_status w did st).1.ratings = w.ratings := by
  cases hd : w.drivers.find? (fun d => d.id == did) with
  | none => constructor <;> simp [update_driver_status, hd]
  | some driver => constructor <;> simp [update_driver_status, hd]

/-! ## Invariant preservation -/

theorem historyOk_applyPatch (pickup : PickupRequest)
    (update : PickupRequestUpdate) (admin : String) (now : Nat)
    (h : HistoryOk pickup) : HistoryOk (applyPatch pickup update admin now) := by
  cases hst : update.status with
  | some s =>
    obtain ⟨h1, h2⟩ := applyPatch_status_some pickup admin now hst
    refine ⟨by simp [h2], ?_⟩
    rw [h2, h1, List.getLast?_concat]
    rfl
  | none =>
    obtain ⟨h1, h2⟩ := applyPatch_status_none pickup admin now hst
    rw [HistoryOk, h1, h2]
    exact h

theorem historyOk_assignedPickup (pickup : PickupRequest)
    (did adm : String) (now : Nat) :
    HistoryOk (assignedPickup pickup did adm now) := by
  have h2 : (assignedPickup pickup did adm now).status_history =
      pickup.status_history ++ [⟨"Assigned", now, adm⟩] := rfl
  have h1 : (assignedPickup pickup did adm now).status = .assigned := rfl
  refine ⟨by simp [h2], ?_⟩
  rw [h2, h1, List.getLast?_concat]
  rfl

theorem historyInv_step {w w' : World} (hs : StepTo w w')
    (hinv : HistoryInv w) : HistoryInv w' := by
  cases hs with
  | create inp newId =>
    rcases create_pickup_shape w inp newId with h | h | ⟨pickup, h, hps, hph⟩
    · rw [h]; exact hinv
    · rw [h]; exact hinv
    · rw [h]
      intro p hp
      rcases List.mem_append.mp hp with hm | hm
      · exact hinv p hm
      · rcases List.mem_singleton.mp hm with rfl
        exact ⟨by simp [hph], by simp [hph, hps]; rfl⟩
  | update rid patch adm =>
    rcases update_pickup_shape w rid patch adm with h | h | ⟨pickup, hf, h⟩
    · rw [h]; exact hinv
    · rw [h]; exact hinv
    · rw [h]
      intro p hp
      rcases mem_updateFirst hf hp with hm | rfl
      · exact hinv p hm
      · exact historyOk_applyPatch pickup patch adm w.now
          (hinv pickup (List.mem_of_find?_eq_some hf))
  | assign rid did adm =>
    rcases assign_driver_shape w rid did adm with ⟨e, h⟩ | ⟨pickup, driver, hf, hd, hp, hdv, h⟩
    · rw [show (assign_driver w rid did adm).1 = w from by rw [h]]; exact hinv
    · rw [show (assign_driver w rid did adm).1 = _ from by rw [h]]
      intro p hp
      rcases mem_updateFirst hf hp with hm | rfl
      · exact hinv p hm
      · exact historyOk_assignedPickup pickup did adm w.now
  | driverCreate inp newId =>
    intro p hp
    rw [(create_driver_fst w inp newId).1] at hp
    exact hinv p hp
  | driverStatus did st =>
    intro p hp
    rw [(update_driver_status_fst w did st).1] at hp
    exact hinv p hp
  | rate pid score fb newId =>
    rcases create_rating_shape w pid score fb newId with h | ⟨hr, h⟩
    · rw [h]; exact hinv
    · rw [show (create_rating w pid score fb newId).1 = _ from by rw [h]]
      exact hinv

theorem ratingsInv_step {w w' : World} (hs : StepTo w w')
    (hinv : RatingsInv w) : RatingsInv w' := by
  cases hs with
  | create inp newId =>
    rcases create_pickup_shape w inp newId with h | h | ⟨pickup, h, _, _⟩
    all_goals rw [h]; exact hinv
  | update rid patch adm =>
    rcases update_pickup_shape w rid patch adm with h | h | ⟨pickup, hf, h⟩
    all_goals rw [h]; exact hinv
  | assign rid did adm =>
    rcases assign_driver_shape w rid did adm with ⟨e, h⟩ | ⟨pickup, driver, hf, hd, hp, hdv, h⟩
    · rw [show (assign_driver w rid did adm).1 = w from by rw [h]]; exact hinv
    · rw [show (assign_driver w rid did adm).1 = _ from by rw [h]]; exact hinv
  | driverCreate inp newId =>
    rw [RatingsInv, (create_driver_fst w inp newId).2]
    exact hinv
  | driverStatus did st =>
    rw [RatingsInv, (update_driver_status_fst w did st).2]
    exact hinv
  | rate pid score fb newId =>
    rcases create_rating_shape w pid score fb newId with h | ⟨hr, h⟩
    · rw [h]; exact hinv
    · rw [show (create_rating w pid score fb newId).1 = _ from by rw [h]]
      rw [RatingsInv, List.pairwise_append]
      refine ⟨hinv, List.pairwise_singleton _ _, ?_⟩
      intro a ha b hb
      rcases List.mem_singleton.mp hb with rfl
      have := List.find?_eq_none.mp hr a ha
      simpa using this

theorem inv_reachable {w : World} (h : Reachable w) :
    HistoryInv w ∧ RatingsInv w := by
  induction h with
  | init =>
    constructor
    · intro p hp
      simp [world0] at hp
    · simp [RatingsInv, world0]
  | step _ hs ih =>
    exact ⟨historyInv_step hs ih.1, ratingsInv_step hs ih.2⟩

/-! ## Audit-trail extension across steps -/

theorem pickupsExtend_refl (l : List PickupRequest) : PickupsExtend l l :=
  ⟨le_refl _, fun _ p h => ⟨p, [], h, by simp⟩⟩

theorem pickupsExtend_append (l l2 : List PickupRequest) :
    PickupsExtend l (l ++ l2) := by
  refine ⟨by simp, fun i p h => ⟨p, [], ?_, by simp⟩⟩
  have hi : i < l.length := by
    by_contra hge
    rw [List.getElem?_eq_none (by omega)] at h
    exact Option.noConfusion h
  rw [List.getElem?_append_left hi]
  exact h

theorem pickupsExtend_updateFirst {l : List PickupRequest}
    {pred : PickupRequest → Bool} {pickup newp : PickupRequest}
    (hfind : l.find? pred = some pickup)
    (hext : ∃ t, newp.status_history = pickup.status_history ++ t) :
    PickupsExtend l (updateFirst l pred (fun _ => newp)) := by
  refine ⟨by rw [length_updateFirst], fun i p h => ?_⟩
  rcases getElem?_updateFirst hfind i with hc | ⟨h1, h2⟩
  · exact ⟨p, [], by rw [hc]; exact h, by simp⟩
  · rw [h] at h2
    injection h2 with h2
    rcases hext with ⟨t, ht⟩
    exact ⟨newp, t, h1, by rw [h2]; exact ht⟩

theorem pickupsExtend_step {w w' : World} (hs : StepTo w w') :
    PickupsExtend w.pickups w'.pickups := by
  cases hs with
  | create inp newId =>
    rcases create_pickup_shape w inp newId with h | h | ⟨pickup, h, _, _⟩
    · rw [h]; exact pickupsExtend_refl _
    · rw [h]; exact pickupsExtend_refl _
    · rw [h]; exact pickupsExtend_append _ _
  | update rid patch adm =>
    rcases update_pickup_shape w rid patch adm with h | h | ⟨pickup, hf, h⟩
    · rw [h]; exact pickupsExtend_refl _
    · rw [h]; exact pickupsExtend_refl _
    · rw [h]
      exact pickupsExtend_updateFirst hf
        (applyPatch_history_extend pickup patch adm w.now)
  | assign rid did adm =>
    rcases assign_driver_shape w rid did adm with ⟨e, h⟩ | ⟨pickup, driver, hf, hd, hp, hdv, h⟩
    · rw [show (assign_driver w rid did adm).1.pickups = w.pickups from by rw [h]]
      exact pickupsExtend_refl _
    · rw [show (assign_driver w rid did adm).1 = _ from by rw [h]]
      exact pickupsExtend_updateFirst hf ⟨_, rfl⟩
  | driverCreate inp newId =>
    rw [(create_driver_fst w inp newId).1]
    exact pickupsExtend_refl _
  | driverStatus did st =>
    rw [(update_driver_status_fst w did st).1]
    exact pickupsExtend_refl _
  | rate pid score fb newId =>
    rcases create_rating_shape w pid score fb newId with h | ⟨hr, h⟩
    · rw [h]; exact pickupsExtend_refl _
    · rw [show (create_rating w pid score fb newId).1.pickups = w.pickups from by rw [h]]
      exact pickupsExtend_refl _

/-! ## Geopricing lemmas -/

theorem round2_intCast (n : ℤ) : round2 ((n : ℤ) : ℝ) = ((n : ℤ) : ℝ) := by
  unfold round2
  rw [show ((n : ℤ) : ℝ) * 100 = ((n * 100 : ℤ) : ℝ) by push_cast; ring, round_intCast]
  push_cast
  field_simp

theorem haversine_self (lat lng : ℝ) : haversine_distance lat lng lat lng = 0 := by
  simp [haversine_distance, radians, atan2]

/-- The id field is untouched by `applyPatch`. -/
theorem applyPatch_id (pickup : PickupRequest) (update : PickupRequestUpdate)
    (admin : String) (now : Nat) :
    (applyPatch pickup update admin now).id = pickup.id := by
  rcases update with ⟨ust, uac, unt, ups⟩
  cases ust <;> rcases uac with - | uac2 <;> cases unt <;> cases ups
  all_goals first
    | rfl
    | (cases uac2 <;> rfl)

/-! ## Concrete fixtures used by witnesses and counterexamples -/

noncomputable def P_pending : PickupRequest :=
  { id := "p1"
    location := { latitude := 0, longitude := 0 }
    waste_image := "img"
    waste_type := .organic
    quantity := .small
    estimated_cost := 50
    distance_km := 0
    status := .pending
    status_history := [⟨"Pending", 0, "user"⟩]
    created_at := 0
    updated_at := 0 }

noncomputable def P_approved : PickupRequest :=
  { P_pending with
    id := "p2"
    status := .approved
    status_history := [⟨"Pending", 0, "user"⟩, ⟨"Approved", 1, "admin"⟩] }

noncomputable def P_completed : PickupRequest :=
  { P_pending with
    id := "p3"
    status := .completed
    status_history := [⟨"Pending", 0, "user"⟩, ⟨"Approved", 1, "admin"⟩,
      ⟨"Assigned", 2, "admin"⟩, ⟨"Completed", 3, "admin"⟩] }

noncomputable def P_costed : PickupRequest :=
  { P_pending with
    id := "p4"
    actual_cost := some 120
    price_history := [⟨120, 2, "admin"⟩] }

noncomputable def D_avail : Driver :=
  { id := "d1", name := "Dina", phone := "555", vehicle_type := "van",
    vehicle_number := "WB-1", status := .available, created_at := 0 }

noncomputable def W_pending : World := ⟨[P_pending], [], [], 7⟩

noncomputable def W_assign : World := ⟨[P_approved], [D_avail], [], 9⟩

noncomputable def W_completed : World := ⟨[P_completed], [], [], 4⟩

noncomputable def W_costed : World := ⟨[P_costed], [], [], 5⟩

def PATCH_approve : PickupRequestUpdate := { status := some .approved }

def PATCH_clear_cost : PickupRequestUpdate := { actual_cost := some none }

noncomputable def inp_hub : PickupRequestCreate :=
  { location := { latitude := SERVICE_CENTER_LAT, longitude := SERVICE_CENTER_LNG }
    waste_image := "x"
    waste_type := .plastic
    quantity := .medium }

/-! ## Claim theorems -/

/-- C1: for an update whose patch carries a status change on an existing
request, the update succeeds exactly when (current status, requested
status) is one of the three edges Pending→Approved, Approved→Assigned,
Assigned→Completed, and on every other requested edge it fails with
`InvalidTransition`, returning no updated request and leaving the store
unchanged. -/
theorem c1_transition_table (w : World) (rid : String) (p : PickupRequest)
    (s : PickupStatus) (patch : PickupRequestUpdate) (adm : String)
    (hf : w.pickups.find? (fun q => q.id == rid) = some p)
    (hst : patch.status = some s) :
    ((∃ r, (update_pickup_request w rid patch adm).2 = .ok r) ↔
      (p.status, s) ∈ [(PickupStatus.pending, PickupStatus.approved),
        (PickupStatus.approved, PickupStatus.assigned),
        (PickupStatus.assigned, PickupStatus.completed)]) ∧
    ((p.status, s) ∉ [(PickupStatus.pending, PickupStatus.approved),
        (PickupStatus.approved, PickupStatus.assigned),
        (PickupStatus.assigned, PickupStatus.completed)] →
      update_pickup_request w rid patch adm = (w, .error .invalidTransition)) := by
  have hmem : s ∈ valid_transitions p.status ↔
      (p.status, s) ∈ [(PickupStatus.pending, PickupStatus.approved),
        (PickupStatus.approved, PickupStatus.assigned),
        (PickupStatus.assigned, PickupStatus.completed)] := by
    cases hps : p.status <;> cases s <;> decide
  by_cases hv : s ∈ valid_transitions p.status
  · have heq : ∃ r, (update_pickup_request w rid patch adm).2 = .ok r :=
      ⟨applyPatch p patch adm w.now, by simp [update_pickup_request, hf, hst, hv]⟩
    exact ⟨iff_of_true heq (hmem.mp hv), fun hn => absurd (hmem.mp hv) hn⟩
  · have herr : update_pickup_request w rid patch adm = (w, .error .invalidTransition) := by
      simp [update_pickup_request, hf, hst, hv]
    refine ⟨iff_of_false ?_ (fun hm => hv (hmem.mpr hm)), fun _ => herr⟩
    rintro ⟨r, hr⟩
    rw [herr] at hr
    exact Except.noConfusion hr

theorem c1_witness :
    ((∃ r, (update_pickup_request W_pending "p1" PATCH_approve "admin").2 = .ok r) ↔
      (P_pending.status, PickupStatus.approved) ∈ [(PickupStatus.pending, PickupStatus.approved),
        (PickupStatus.approved, PickupStatus.assigned),
        (PickupStatus.assigned, PickupStatus.completed)]) ∧
    ((P_pending.status, PickupStatus.approved) ∉ [(PickupStatus.pending, PickupStatus.approved),
        (PickupStatus.approved, PickupStatus.assigned),
        (PickupStatus.assigned, PickupStatus.completed)] →
      update_pickup_request W_pending "p1" PATCH_approve "admin" =
        (W_pending, .error .invalidTransition)) :=
  c1_transition_table W_pending "p1" P_pending .approved PATCH_approve "admin" rfl rfl

/-- C8: an update call that fails (NotFound, InvalidTransition) leaves
the whole store — hence every stored field, including both histories —
unchanged; nothing is written on any error path. -/
theorem c8_update_failure_unchanged (w : World) (rid : String)
    (patch : PickupRequestUpdate) (adm : String) (e : Err)
    (herr : (update_pickup_request w rid patch adm).2 = .error e) :
    (update_pickup_request w rid patch adm).1 = w := by
  rcases update_pickup_shape w rid patch adm with h | h | ⟨pickup, hf, h⟩
  · rw [h]
  · rw [h]
  · simp [h] at herr

theorem c8_witness :
    (update_pickup_request W_pending "nope" PATCH_approve "admin").1 = W_pending :=
  c8_update_failure_unchanged _ _ _ _ .notFound rfl

/-- C10: an update whose patch explicitly provides `actual_cost: null`
overwrites the stored actual cost to null while appending nothing to the
price history — the cleared value leaves no audit record. -/
theorem c10_clear_actual_cost (w : World) (rid : String)
    (patch : PickupRequestUpdate) (adm : String) (p r : PickupRequest)
    (hf : w.pickups.find? (fun q => q.id == rid) = some p)
    (hac : patch.actual_cost = some none)
    (hok : (update_pickup_request w rid patch adm).2 = .ok r) :
    r.actual_cost = none ∧ r.price_history = p.price_history ∧
    (update_pickup_request w rid patch adm).1.pickups.find?
      (fun q => q.id == rid) = some r := by
  rcases update_pickup_shape w rid patch adm with h | h | ⟨pickup, hf2, h⟩
  · simp [h] at hok
  · simp [h] at hok
  · rw [hf2] at hf
    injection hf with hf
    subst hf
    rw [h] at hok
    simp only [Except.ok.injEq] at hok
    subst hok
    obtain ⟨h1, h2⟩ := applyPatch_cost_null pickup adm w.now hac
    refine ⟨h1, h2, ?_⟩
    rw [h]
    have hp0 := List.find?_some hf2
    have hp : (pickup.id == rid) = true := by simpa using hp0
    exact find?_updateFirst hf2 (by rw [applyPatch_id]; exact hp)

theorem c10_witness :
    (applyPatch P_costed PATCH_clear_cost "admin" 5).actual_cost = none ∧
    (applyPatch P_costed PATCH_clear_cost "admin" 5).price_history = P_costed.price_history ∧
    (update_pickup_request W_costed "p4" PATCH_clear_cost "admin").1.pickups.find?
      (fun q => q.id == "p4") = some (applyPatch P_costed PATCH_clear_cost "admin" 5) :=
  c10_clear_actual_cost W_costed "p4" PATCH_clear_cost "admin" P_costed _ rfl rfl rfl

/-- C2: in every reachable store, each pickup request's status history is
non-empty and its last entry's status mirrors the current status; each
accepted status transition (via update or assign_driver) appends exactly
one entry; update without a status change appends nothing; and every
handler execution leaves each stored pickup's existing history as a
prefix of the new one (no removal, reorder, or rewrite). -/
theorem c2_audit_trail :
    (∀ w, Reachable w → HistoryInv w) ∧
    (∀ (w : World) (rid : String) (p : PickupRequest) (s : PickupStatus)
      (patch : PickupRequestUpdate) (adm : String) (r : PickupRequest),
      w.pickups.find? (fun q => q.id == rid) = some p →
      patch.status = some s →
      (update_pickup_request w rid patch adm).2 = .ok r →
      r.status_history = p.status_history ++ [⟨s.value, w.now, adm⟩]) ∧
    (∀ (w : World) (rid : String) (p : PickupRequest)
      (patch : PickupRequestUpdate) (adm : String) (r : PickupRequest),
      w.pickups.find? (fun q => q.id == rid) = some p →
      patch.status = none →
      (update_pickup_request w rid patch adm).2 = .ok r →
      r.status_history = p.status_history) ∧
    (∀ (w : World) (rid did adm : String) (p r : PickupRequest),
      w.pickups.find? (fun q => q.id == rid) = some p →
      (assign_driver w rid did adm).2 = .ok r →
      r.status_history = p.status_history ++ [⟨"Assigned", w.now, adm⟩]) ∧
    (∀ w w', StepTo w w' → PickupsExtend w.pickups w'.pickups) := by
  refine ⟨fun w h => (inv_reachable h).1, ?_, ?_, ?_, fun w w' hs => pickupsExtend_step hs⟩
  · intro w rid p s patch adm r hf hst hok
    rcases update_pickup_shape w rid patch adm with h | h | ⟨pickup, hf2, h⟩
    · simp [h] at hok
    · simp [h] at hok
    · rw [hf2] at hf
      injection hf with hf
      subst hf
      rw [h] at hok
      simp only [Except.ok.injEq] at hok
      subst hok
      exact (applyPatch_status_some pickup adm w.now hst).2
  · intro w rid p patch adm r hf hst hok
    rcases update_pickup_shape w rid patch adm with h | h | ⟨pickup, hf2, h⟩
    · simp [h] at hok
    · simp [h] at hok
    · rw [hf2] at hf
      injection hf with hf
      subst hf
      rw [h] at hok
      simp only [Except.ok.injEq] at hok
      subst hok
      exact (applyPatch_status_none pickup adm w.now hst).2
  · intro w rid did adm p r hf hok
    rcases assign_driver_shape w rid did adm with ⟨e, h⟩ | ⟨pickup, driver, hf2, hd, hp, hdv, h⟩
    · simp [h] at hok
    · rw [hf2] at hf
      injection hf with hf
      subst hf
      rw [h] at hok
      simp only [Except.ok.injEq] at hok
      subst hok
      rfl

theorem c2_witness :
    (applyPatch P_pending PATCH_approve "admin" 7).status_history =
      P_pending.status_history ++ [⟨"Approved", 7, "admin"⟩] ∧
    HistoryInv world0 :=
  ⟨c2_audit_trail.2.1 W_pending "p1" P_pending .approved PATCH_approve "admin"
      (applyPatch P_pending PATCH_approve "admin" 7) rfl rfl rfl,
    c2_audit_trail.1 world0 Reachable.init⟩

/-- C3 counterexample: with a Pending pickup `p1` in the store and no
driver at all, `assign_driver` on `p1` and an absent driver id fails with
`InvalidState`, not `NotFound` — so "fails with NotFound if either id is
absent" is false as stated (the pickup-status check runs before the
driver lookup). -/
theorem c3_counterexample :
    (assign_driver W_pending "p1" "dX" "admin").2 = .error .invalidState ∧
    W_pending.drivers.find? (fun d => d.id == "dX") = none ∧
    Err.invalidState ≠ Err.notFound :=
  ⟨rfl, rfl, by decide⟩

/-- C3 (amended): `assign_driver` fails `NotFound` on an absent pickup
id; `InvalidState` when the pickup exists but is not Approved (checked
before the driver lookup); `NotFound` when the pickup is Approved and
the driver id is absent; `DriverUnavailable` when the driver exists but
is not Available; and on success the pickup's status is Assigned, its
driver_id is the given driver id, and the driver's status is Busy. -/
theorem c3_assign_driver (w : World) (rid did adm : String) :
    (w.pickups.find? (fun q => q.id == rid) = none →
      assign_driver w rid did adm = (w, .error .notFound)) ∧
    (∀ p, w.pickups.find? (fun q => q.id == rid) = some p →
      p.status ≠ .approved →
      assign_driver w rid did adm = (w, .error .invalidState)) ∧
    (∀ p, w.pickups.find? (fun q => q.id == rid) = some p →
      p.status = .approved →
      w.drivers.find? (fun d => d.id == did) = none →
      assign_driver w rid did adm = (w, .error .notFound)) ∧
    (∀ p d, w.pickups.find? (fun q => q.id == rid) = some p →
      p.status = .approved →
      w.drivers.find? (fun d2 => d2.id == did) = some d →
      d.status ≠ .available →
      assign_driver w rid did adm = (w, .error .driverUnavailable)) ∧
    (∀ p d, w.pickups.find? (fun q => q.id == rid) = some p →
      p.status = .approved →
      w.drivers.find? (fun d2 => d2.id == did) = some d →
      d.status = .available →
      (assign_driver w rid did adm).2 = .ok (assignedPickup p did adm w.now) ∧
      (assignedPickup p did adm w.now).status = .assigned ∧
      (assignedPickup p did adm w.now).driver_id = some did ∧
      (assign_driver w rid did adm).1.pickups.find? (fun q => q.id == rid) =
        some (assignedPickup p did adm w.now) ∧
      (assign_driver w rid did adm).1.drivers.find? (fun d2 => d2.id == did) =
        some { d with status := .busy }) := by
  refine ⟨?_, ?_, ?_, ?_, ?_⟩
  · intro hf
    simp [assign_driver, hf]
  · intro p hf hp
    simp [assign_driver, hf, hp]
  · intro p hf hp hd
    simp [assign_driver, hf, hp, hd]
  · intro p d hf hp hd hdv
    simp [assign_driver, hf, hp, hd, hdv]
  · intro p d hf hp hd hdv
    have heq : assign_driver w rid did adm =
        ({ w with
            pickups := updateFirst w.pickups (fun q => q.id == rid)
              (fun _ => assignedPickup p did adm w.now)
            drivers := updateFirst w.drivers (fun d2 => d2.id == did)
              (fun d2 => { d2 with status := .busy })
            now := w.now + 1 },
          .ok (assignedPickup p did adm w.now)) := by
      simp [assign_driver, hf, hp, hd, hdv]
    have hpid0 := List.find?_some hf
    have hpid : (p.id == rid) = true := by simpa using hpid0
    have hdid0 := List.find?_some hd
    have hdid : (d.id == did) = true := by simpa using hdid0
    refine ⟨by rw [heq], rfl, rfl, ?_, ?_⟩
    · rw [heq]
      exact find?_updateFirst hf hpid
    · rw [heq]
      exact find?_updateFirst hd hdid

theorem c3_witness :
    (assign_driver W_assign "p2" "d1" "admin").2 =
      .ok (assignedPickup P_approved "d1" "admin" 9) ∧
    (assignedPickup P_approved "d1" "admin" 9).status = .assigned ∧
    (assignedPickup P_approved "d1" "admin" 9).driver_id = some "d1" ∧
    (assign_driver W_assign "p2" "d1" "admin").1.pickups.find?
      (fun q => q.id == "p2") = some (assignedPickup P_approved "d1" "admin" 9) ∧
    (assign_driver W_assign "p2" "d1" "admin").1.drivers.find?
      (fun d2 => d2.id == "d1") = some { D_avail with status := .busy } :=
  (c3_assign_driver W_assign "p2" "d1" "admin").2.2.2.2 P_approved D_avail
    rfl rfl rfl rfl

theorem PickupStatus.value_eq_completed (st : PickupStatus) :
    st.value = PickupStatus.completed.value ↔ st = .completed := by
  cases st <;> simp [PickupStatus.value]

/-- C6 counterexample: a rating request with score 0 for an unknown
pickup id fails with `ValidationError`, not `NotFound` — the pydantic
score bound is checked at request parsing, before the pickup lookup, so
"fails with NotFound if the pickup id is unknown" is false as stated. -/
theorem c6_counterexample :
    (create_rating world0 "pX" 0 none "r1").2 = .error .validationError ∧
    world0.pickups.find? (fun q => q.id == "pX") = none ∧
    Err.validationError ≠ Err.notFound :=
  ⟨rfl, rfl, by decide⟩

/-- C6 (amended): rating creation checks the score bound 1..5 first (at
request parsing) and fails `ValidationError`; with a valid score it
fails `NotFound` on an unknown pickup id, `InvalidState` on a
non-Completed pickup, `Conflict` when a rating for that pickup already
exists, and otherwise appends exactly one rating; in every reachable
store no two ratings share a pickup id. -/
theorem c6_rating_rules :
    (∀ (w : World) (pid : String) (score : ℤ) (fb : Option String) (newId : String),
      (¬(1 ≤ score ∧ score ≤ 5) →
        create_rating w pid score fb newId = (w, .error .validationError)) ∧
      ((1 ≤ score ∧ score ≤ 5) →
        w.pickups.find? (fun q => q.id == pid) = none →
        create_rating w pid score fb newId = (w, .error .notFound)) ∧
      (∀ p, (1 ≤ score ∧ score ≤ 5) →
        w.pickups.find? (fun q => q.id == pid) = some p →
        p.status ≠ .completed →
        create_rating w pid score fb newId = (w, .error .invalidState)) ∧
      (∀ p r0, (1 ≤ score ∧ score ≤ 5) →
        w.pickups.find? (fun q => q.id == pid) = some p →
        p.status = .completed →
        w.ratings.find? (fun r => r.pickup_id == pid) = some r0 →
        create_rating w pid score fb newId = (w, .error .conflict)) ∧
      (∀ p, (1 ≤ score ∧ score ≤ 5) →
        w.pickups.find? (fun q => q.id == pid) = some p →
        p.status = .completed →
        w.ratings.find? (fun r => r.pickup_id == pid) = none →
        create_rating w pid score fb newId =
          ({ w with
              ratings := w.ratings ++ [⟨newId, pid, score, fb, w.now⟩]
              now := w.now + 1 },
            .ok ⟨newId, pid, score, fb, w.now⟩))) ∧
    (∀ w, Reachable w → RatingsInv w) := by
  refine ⟨fun w pid score fb newId => ⟨?_, ?_, ?_, ?_, ?_⟩,
    fun w h => (inv_reachable h).2⟩
  · intro hs
    simp [create_rating, hs]
  · intro hs hf
    simp [create_rating, hs, hf]
  · intro p hs hf hc
    have hv : p.status.value ≠ PickupStatus.completed.value :=
      fun hveq => hc ((PickupStatus.value_eq_completed p.status).mp hveq)
    simp [create_rating, hs, hf, hv]
  · intro p r0 hs hf hc hr
    simp [create_rating, hs, hf, hc, hr, PickupStatus.value]
  · intro p hs hf hc hr
    simp [create_rating, hs, hf, hc, hr, PickupStatus.value]

theorem c6_witness :
    create_rating W_completed "p3" 5 none "r1" =
      ({ W_completed with
          ratings := W_completed.ratings ++ [⟨"r1", "p3", 5, none, W_completed.now⟩]
          now := W_completed.now + 1 },
        .ok ⟨"r1", "p3", 5, none, W_completed.now⟩) ∧
    RatingsInv world0 :=
  ⟨(c6_rating_rules.1 W_completed "p3" 5 none "r1").2.2.2.2 P_completed
      (by decide) rfl rfl rfl,
    c6_rating_rules.2 world0 .init⟩

theorem dictGet_not_mem {d : List (String × ℝ)} {k : String} {dflt : ℝ}
    (h : ∀ x ∈ d, x.1 ≠ k) : dictGet d k dflt = dflt := by
  have hnone : d.find? (fun p => p.1 == k) = none := by
    rw [List.find?_eq_none]
    intro x hx
    simpa using h x hx
  simp [dictGet, hnone]

/-- C5: the computed cost is
`round2 ((distance * 10 + volume_factor * 50) * waste_surcharge)` with
the tabulated volume factors and surcharges; keys outside either table
contribute factor 1.0 instead of an error; and the two end-to-end
values 75.0 and 300.0 come out. -/
theorem c5_cost_formula :
    (∀ (d : ℝ) (q wt : String),
      calculate_cost d q wt =
        round2 (((d * 10) + (dictGet VOLUME_FACTORS q 1.0 * 50)) *
          dictGet WASTE_SURCHARGES wt 1.0)) ∧
    dictGet VOLUME_FACTORS "Small" 1.0 = 1.0 ∧
    dictGet VOLUME_FACTORS "Medium" 1.0 = 1.5 ∧
    dictGet VOLUME_FACTORS "Large" 1.0 = 2.0 ∧
    dictGet VOLUME_FACTORS "Bulk" 1.0 = 3.0 ∧
    dictGet WASTE_SURCHARGES "Organic" 1.0 = 1.0 ∧
    dictGet WASTE_SURCHARGES "Plastic" 1.0 = 1.0 ∧
    dictGet WASTE_SURCHARGES "Metal" 1.0 = 1.0 ∧
    dictGet WASTE_SURCHARGES "Mixed" 1.0 = 1.1 ∧
    dictGet WASTE_SURCHARGES "E-Waste" 1.0 = 1.2 ∧
    (∀ q : String, q ∉ ["Small", "Medium", "Large", "Bulk"] →
      dictGet VOLUME_FACTORS q 1.0 = 1.0) ∧
    (∀ wt : String, wt ∉ ["Organic", "Plastic", "Metal", "E-Waste", "Mixed"] →
      dictGet WASTE_SURCHARGES wt 1.0 = 1.0) ∧
    calculate_cost 0 "Medium" "Plastic" = 75 ∧
    calculate_cost 10 "Bulk" "E-Waste" = 300 := by
  refine ⟨fun d q wt => rfl, rfl, rfl, rfl, rfl, rfl, rfl, rfl, rfl, rfl,
    ?_, ?_, ?_, ?_⟩
  · intro q hq
    simp only [List.mem_cons, List.not_mem_nil, or_false, not_or] at hq
    obtain ⟨h1, h2, h3, h4⟩ := hq
    refine dictGet_not_mem ?_
    intro x hx
    fin_cases hx
    · exact fun hc => h1 hc.symm
    · exact fun hc => h2 hc.symm
    · exact fun hc => h3 hc.symm
    · exact fun hc => h4 hc.symm
  · intro wt hwt
    simp only [List.mem_cons, List.not_mem_nil, or_false, not_or] at hwt
    obtain ⟨h1, h2, h3, h4, h5⟩ := hwt
    refine dictGet_not_mem ?_
    intro x hx
    fin_cases hx
    · exact fun hc => h1 hc.symm
    · exact fun hc => h2 hc.symm
    · exact fun hc => h3 hc.symm
    · exact fun hc => h4 hc.symm
    · exact fun hc => h5 hc.symm
  · show round2 ((((0 : ℝ) * RATE_PER_KM) +
      (dictGet VOLUME_FACTORS "Medium" 1.0 * BASE_RATE)) *
      dictGet WASTE_SURCHARGES "Plastic" 1.0) = 75
    rw [show dictGet VOLUME_FACTORS "Medium" 1.0 = 1.5 from rfl,
      show dictGet WASTE_SURCHARGES "Plastic" 1.0 = 1.0 from rfl,
      show (((0 : ℝ) * RATE_PER_KM) + ((1.5 : ℝ) * BASE_RATE)) * 1.0 = ((75 : ℤ) : ℝ) by
        norm_num [RATE_PER_KM, BASE_RATE],
      round2_intCast]
    norm_num
  · show round2 ((((10 : ℝ) * RATE_PER_KM) +
      (dictGet VOLUME_FACTORS "Bulk" 1.0 * BASE_RATE)) *
      dictGet WASTE_SURCHARGES "E-Waste" 1.0) = 300
    rw [show dictGet VOLUME_FACTORS "Bulk" 1.0 = 3.0 from rfl,
      show dictGet WASTE_SURCHARGES "E-Waste" 1.0 = 1.2 from rfl,
      show (((10 : ℝ) * RATE_PER_KM) + ((3.0 : ℝ) * BASE_RATE)) * 1.2 = ((300 : ℤ) : ℝ) by
        norm_num [RATE_PER_KM, BASE_RATE],
      round2_intCast]
    norm_num

theorem c5_witness :
    dictGet VOLUME_FACTORS "Huge" 1.0 = 1.0 ∧
    dictGet WASTE_SURCHARGES "Nuclear" 1.0 = 1.0 :=
  ⟨c5_cost_formula.2.2.2.2.2.2.2.2.2.2.1 "Huge" (by decide),
    c5_cost_formula.2.2.2.2.2.2.2.2.2.2.2.1 "Nuclear" (by decide)⟩

/-- C4: with a size-valid photo, `create` succeeds exactly when the
haversine distance (earth radius 6371 km) from the hub to the input
location is at most the 20 km radius; beyond the radius it fails with
`OutOfServiceArea` and persists nothing; on success the stored
`distance_km` is that distance rounded to 2 decimals. -/
theorem c4_geofence (w : World) (inp : PickupRequestCreate) (newId : String)
    (himg : (inp.waste_image.length : ℝ) ≤ 2.67 * 1024 * 1024) :
    ((∃ r, (create_pickup_request w inp newId).2 = .ok r) ↔
      haversine_distance SERVICE_CENTER_LAT SERVICE_CENTER_LNG
        inp.location.latitude inp.location.longitude ≤ SERVICE_RADIUS_KM) ∧
    (¬ haversine_distance SERVICE_CENTER_LAT SERVICE_CENTER_LNG
        inp.location.latitude inp.location.longitude ≤ SERVICE_RADIUS_KM →
      create_pickup_request w inp newId = (w, .error .outOfServiceArea)) ∧
    (∀ r, (create_pickup_request w inp newId).2 = .ok r →
      r.distance_km = round2 (haversine_distance SERVICE_CENTER_LAT
        SERVICE_CENTER_LNG inp.location.latitude inp.location.longitude)) := by
  have h1 : ¬ ((inp.waste_image.length : ℝ) > 2.67 * 1024 * 1024) := not_lt.mpr himg
  by_cases hd : haversine_distance SERVICE_CENTER_LAT SERVICE_CENTER_LNG
      inp.location.latitude inp.location.longitude > SERVICE_RADIUS_KM
  · have herr : create_pickup_request w inp newId = (w, .error .outOfServiceArea) := by
      simp [create_pickup_request, h1, hd]
    refine ⟨iff_of_false ?_ (not_le.mpr hd), fun _ => herr, ?_⟩
    · rintro ⟨r, hr⟩
      rw [herr] at hr
      exact Except.noConfusion hr
    · intro r hr
      rw [herr] at hr
      exact Except.noConfusion hr
  · have heq : create_pickup_request w inp newId =
        ({ w with
            pickups := w.pickups ++ [createdPickup w inp newId]
            now := w.now + 1 },
          .ok (createdPickup w inp newId)) := by
      simp [create_pickup_request, h1, hd]
    refine ⟨iff_of_true ⟨createdPickup w inp newId, by rw [heq]⟩ (not_lt.mp hd),
      fun hc => absurd (not_lt.mp hd) hc, ?_⟩
    intro r hr
    simp only [heq, Except.ok.injEq] at hr
    subst hr
    rfl

theorem c4_witness :
    ((inp_hub.waste_image.length : ℝ) ≤ 2.67 * 1024 * 1024) ∧
    (∃ r, (create_pickup_request world0 inp_hub "p1").2 = .ok r) := by
  have hlen : inp_hub.waste_image.length = 1 := rfl
  have himg : ((inp_hub.waste_image.length : ℕ) : ℝ) ≤ 2.67 * 1024 * 1024 := by
    rw [hlen]; norm_num
  refine ⟨himg, (c4_geofence world0 inp_hub "p1" himg).1.mpr ?_⟩
  rw [show inp_hub.location.latitude = SERVICE_CENTER_LAT from rfl,
    show inp_hub.location.longitude = SERVICE_CENTER_LNG from rfl,
    haversine_self]
  norm_num [SERVICE_RADIUS_KM]

/-- C7: for a size-valid, in-area input, `create` persists exactly one
new pickup request whose status is Pending, whose estimated cost and
rounded distance come from the geopricing computation on the input
location, and whose status history is the single entry
`{status: Pending, actor: "user"}`; no admin argument is involved. -/
theorem c7_create (w : World) (inp : PickupRequestCreate) (newId : String)
    (himg : (inp.waste_image.length : ℝ) ≤ 2.67 * 1024 * 1024)
    (hin : haversine_distance SERVICE_CENTER_LAT SERVICE_CENTER_LNG
      inp.location.latitude inp.location.longitude ≤ SERVICE_RADIUS_KM) :
    create_pickup_request w inp newId =
      ({ w with
          pickups := w.pickups ++ [createdPickup w inp newId]
          now := w.now + 1 },
        .ok (createdPickup w inp newId)) ∧
    (createdPickup w inp newId).status = .pending ∧
    (createdPickup w inp newId).estimated_cost =
      calculate_cost (haversine_distance SERVICE_CENTER_LAT SERVICE_CENTER_LNG
        inp.location.latitude inp.location.longitude)
        inp.quantity.value inp.waste_type.value ∧
    (createdPickup w inp newId).distance_km =
      round2 (haversine_distance SERVICE_CENTER_LAT SERVICE_CENTER_LNG
        inp.location.latitude inp.location.longitude) ∧
    (createdPickup w inp newId).status_history = [⟨"Pending", w.now, "user"⟩] := by
  have h1 : ¬ ((inp.waste_image.length : ℝ) > 2.67 * 1024 * 1024) := not_lt.mpr himg
  have h2 : ¬ (haversine_distance SERVICE_CENTER_LAT SERVICE_CENTER_LNG
      inp.location.latitude inp.location.longitude > SERVICE_RADIUS_KM) :=
    not_lt.mpr hin
  exact ⟨by simp [create_pickup_request, h1, h2], rfl, rfl, rfl, rfl⟩

theorem c7_witness :
    create_pickup_request world0 inp_hub "p1" =
      ({ world0 with
          pickups := world0.pickups ++ [createdPickup world0 inp_hub "p1"]
          now := world0.now + 1 },
        .ok (createdPickup world0 inp_hub "p1")) ∧
    (createdPickup world0 inp_hub "p1").status = .pending ∧
    (createdPickup world0 inp_hub "p1").estimated_cost =
      calculate_cost (haversine_distance SERVICE_CENTER_LAT SERVICE_CENTER_LNG
        inp_hub.location.latitude inp_hub.location.longitude)
        inp_hub.quantity.value inp_hub.waste_type.value ∧
    (createdPickup world0 inp_hub "p1").distance_km =
      round2 (haversine_distance SERVICE_CENTER_LAT SERVICE_CENTER_LNG
        inp_hub.location.latitude inp_hub.location.longitude) ∧
    (createdPickup world0 inp_hub "p1").status_history =
      [⟨"Pending", world0.now, "user"⟩] := by
  refine c7_create world0 inp_hub "p1" ?_ ?_
  · rw [show inp_hub.waste_image.length = 1 from rfl]
    norm_num
  · rw [show inp_hub.location.latitude = SERVICE_CENTER_LAT from rfl,
      show inp_hub.location.longitude = SERVICE_CENTER_LNG from rfl,
      haversine_self]
    norm_num [SERVICE_RADIUS_KM]

end EcoPort
